import Mathlib

/-!
Verification of the telemetry-kit repository: a shallow embedding of the
client SDK (HMAC signer, sync client, retry strategy, event storage,
auto-sync scheduler) and the ingestion server (HMAC middleware, nonce replay
guard, rate limiter, ingestion handler), with theorems settling the spec
claims.

Machine integers are modelled as `Nat` with explicit `% 2^32` where the
source relies on 32-bit wraparound (SHA-256 words).  Bytes are `Nat`s below
256.  SHA-256 and HMAC-SHA256 are implemented executably so that signatures
can be evaluated by `decide`.
-/

set_option maxRecDepth 100000

namespace TelemetryKit

/-! ## Bytes and UTF-8

`strBytes` models the Rust `str::as_bytes` view (UTF-8 encoding of the
string). -/

/-- UTF-8 encoding of a single code point. -/
def utf8Bytes (n : Nat) : List Nat :=
  if n < 128 then [n]
  else if n < 2048 then [192 ||| (n >>> 6), 128 ||| (n &&& 63)]
  else if n < 65536 then
    [224 ||| (n >>> 12), 128 ||| ((n >>> 6) &&& 63), 128 ||| (n &&& 63)]
  else
    [240 ||| (n >>> 18), 128 ||| ((n >>> 12) &&& 63),
     128 ||| ((n >>> 6) &&& 63), 128 ||| (n &&& 63)]

/-- The UTF-8 bytes of a string (Rust `as_bytes`). -/
def strBytes (s : String) : List Nat :=
  (s.data.map (fun c => utf8Bytes c.toNat)).flatten

/-! ## SHA-256 (FIPS 180-4), executable over byte lists -/

namespace Sha256

/-- Reduce to a 32-bit word. -/
def mask (x : Nat) : Nat := x % 4294967296

/-- 32-bit rotate right. -/
def rotr (n x : Nat) : Nat := mask ((x >>> n) ||| (x <<< (32 - n)))

def bigS0 (x : Nat) : Nat := rotr 2 x ^^^ rotr 13 x ^^^ rotr 22 x
def bigS1 (x : Nat) : Nat := rotr 6 x ^^^ rotr 11 x ^^^ rotr 25 x
def smallS0 (x : Nat) : Nat := rotr 7 x ^^^ rotr 18 x ^^^ (x >>> 3)
def smallS1 (x : Nat) : Nat := rotr 17 x ^^^ rotr 19 x ^^^ (x >>> 10)
def chF (e f g : Nat) : Nat := (e &&& f) ^^^ ((e ^^^ 4294967295) &&& g)
def majF (a b c : Nat) : Nat := (a &&& b) ^^^ (a &&& c) ^^^ (b &&& c)

/-- The 64 SHA-256 round constants (decimal). -/
def K : List Nat :=
  [1116352408, 1899447441, 3049323471, 3921009573,
   961987163, 1508970993, 2453635748, 2870763221,
   3624381080, 310598401, 607225278, 1426881987,
   1925078388, 2162078206, 2614888103, 3248222580,
   3835390401, 4022224774, 264347078, 604807628,
   770255983, 1249150122, 1555081692, 1996064986,
   2554220882, 2821834349, 2952996808, 3210313671,
   3336571891, 3584528711, 113926993, 338241895,
   666307205, 773529912, 1294757372, 1396182291,
   1695183700, 1986661051, 2177026350, 2456956037,
   2730485921, 2820302411, 3259730800, 3345764771,
   3516065817, 3600352804, 4094571909, 275423344,
   430227734, 506948616, 659060556, 883997877,
   958139571, 1322822218, 1537002063, 1747873779,
   1955562222, 2024104815, 2227730452, 2361852424,
   2428436474, 2756734187, 3204031479, 3329325298]

/-- Hash state: the eight 32-bit words. -/
structure HashState where
  h0 : Nat
  h1 : Nat
  h2 : Nat
  h3 : Nat
  h4 : Nat
  h5 : Nat
  h6 : Nat
  h7 : Nat
  deriving DecidableEq

def initState : HashState :=
  ⟨1779033703, 3144134277, 1013904242, 2773480762,
   1359893119, 2600822924, 528734635, 1541459225⟩

/-- Split a list into chunks of `size`, driven by structural fuel so that the
kernel can evaluate it. -/
def chunksOf (size : Nat) : Nat → List Nat → List (List Nat)
  | 0, _ => []
  | _, [] => []
  | fuel + 1, l => l.take size :: chunksOf size fuel (l.drop size)

/-- Big-endian word from bytes. -/
def wordOfBytes (bs : List Nat) : Nat := bs.foldl (fun acc b => acc * 256 + b) 0

/-- Extend the (reversed) message schedule by `fuel` further words. -/
def scheduleExt : Nat → List Nat → List Nat
  | 0, w => w
  | fuel + 1, w =>
    scheduleExt fuel
      (mask (w.getD 15 0 + smallS0 (w.getD 14 0) + w.getD 6 0 +
        smallS1 (w.getD 1 0)) :: w)

/-- The 64-word message schedule of a 64-byte block. -/
def schedule (block : List Nat) : List Nat :=
  let w16 := (chunksOf 4 block.length block).map wordOfBytes
  (scheduleExt 48 w16.reverse).reverse

/-- One round of the compression function on the working variables. -/
def roundStep (st : Nat × Nat × Nat × Nat × Nat × Nat × Nat × Nat) (kw : Nat) :
    Nat × Nat × Nat × Nat × Nat × Nat × Nat × Nat :=
  match st with
  | (a, b, c, d, e, f, g, h) =>
    let t1 := h + bigS1 e + chF e f g + kw
    let t2 := bigS0 a + majF a b c
    (mask (t1 + t2), a, b, c, mask (d + t1), e, f, g)

/-- Compress one 64-byte block into the hash state. -/
def compress (st : HashState) (block : List Nat) : HashState :=
  let kw := List.zipWith (fun k w => k + w) K (schedule block)
  match kw.foldl roundStep (st.h0, st.h1, st.h2, st.h3, st.h4, st.h5, st.h6, st.h7) with
  | (a, b, c, d, e, f, g, h) =>
    ⟨mask (st.h0 + a), mask (st.h1 + b), mask (st.h2 + c), mask (st.h3 + d),
     mask (st.h4 + e), mask (st.h5 + f), mask (st.h6 + g), mask (st.h7 + h)⟩

/-- SHA-256 padding: `0x80`, zeros to 56 mod 64, then the 64-bit big-endian
bit length. -/
def padBytes (msg : List Nat) : List Nat :=
  let len := msg.length
  let zeros := (120 - (len + 1) % 64) % 64
  let lb := len * 8
  msg ++ 128 :: List.replicate zeros 0 ++
    [lb / 2 ^ 56 % 256, lb / 2 ^ 48 % 256, lb / 2 ^ 40 % 256, lb / 2 ^ 32 % 256,
     lb / 2 ^ 24 % 256, lb / 2 ^ 16 % 256, lb / 2 ^ 8 % 256, lb % 256]

/-- Big-endian bytes of a 32-bit word. -/
def wordBytes (w : Nat) : List Nat :=
  [w / 2 ^ 24 % 256, w / 2 ^ 16 % 256, w / 2 ^ 8 % 256, w % 256]

/-- The 32-byte digest of a final hash state. -/
def digestBytes (st : HashState) : List Nat :=
  wordBytes st.h0 ++ wordBytes st.h1 ++ wordBytes st.h2 ++ wordBytes st.h3 ++
  wordBytes st.h4 ++ wordBytes st.h5 ++ wordBytes st.h6 ++ wordBytes st.h7

end Sha256

/-- SHA-256 of a byte list. -/
def sha256 (msg : List Nat) : List Nat :=
  let padded := Sha256.padBytes msg
  Sha256.digestBytes
    ((Sha256.chunksOf 64 padded.length padded).foldl Sha256.compress Sha256.initState)

/-- HMAC-SHA256 (RFC 2104) over byte lists, 64-byte block size. -/
def hmacSha256 (key msg : List Nat) : List Nat :=
  let k1 := if 64 < key.length then sha256 key else key
  let k0 := k1 ++ List.replicate (64 - k1.length) 0
  let ipad := k0.map (fun b => b ^^^ 0x36)
  let opad := k0.map (fun b => b ^^^ 0x5c)
  sha256 (opad ++ sha256 (ipad ++ msg))

/-- Lowercase hex digit. -/
def hexDigit (n : Nat) : Char :=
  if n < 10 then Char.ofNat (48 + n) else Char.ofNat (87 + n)

/-- Lowercase hex encoding of bytes (Rust `hex::encode`). -/
def hexEncode (bs : List Nat) : String :=
  String.mk ((bs.map (fun b => [hexDigit (b / 16), hexDigit (b % 16)])).flatten)

/-! ## SDK HMAC auth (src/src/sync/auth.rs) -/

/-- `constant_time_eq` from src/src/sync/auth.rs (the identical function also
appears in both server auth.rs files): length check first, then an
OR-accumulated XOR over the byte pairs.  Bytes are below 256, so the `u8`
accumulator never wraps and `Nat` is faithful. -/
def constant_time_eq (a b : List Nat) : Bool :=
  if a.length != b.length then false
  else ((a.zip b).foldl (fun diff p => diff ||| (p.1 ^^^ p.2)) 0) == 0

namespace HmacAuth

/-- `HmacAuth::sign`: HMAC-SHA256 over the canonical message
`timestamp:nonce:body`, hex-encoded lowercase. -/
def sign (secret timestamp nonce body : String) : String :=
  hexEncode (hmacSha256 (strBytes secret)
    (strBytes (timestamp ++ ":" ++ nonce ++ ":" ++ body)))

/-- `HmacAuth::verify`: recompute and compare in constant time. -/
def verify (secret timestamp nonce body signature : String) : Bool :=
  constant_time_eq (strBytes signature) (strBytes (sign secret timestamp nonce body))

end HmacAuth

/-! ## Server HMAC verification

`verify_signature` is textually identical in src/server/src/auth.rs and
src/telemetry-kit-server/src/auth.rs; the two middlewares differ in the
message they feed it. -/

namespace ServerAuth

/-- `verify_signature(message, signature, secret)` from both server auth.rs
files. -/
def verify_signature (message signature secret : String) : Bool :=
  constant_time_eq (strBytes signature)
    (strBytes (hexEncode (hmacSha256 (strBytes secret) (strBytes message))))

/-- The message hashed by src/server/src/auth.rs `verify_hmac`:
`format!("{}:{}", timestamp, body_str)` — the nonce is absent. -/
def canonicalMessage (timestamp body : String) : String :=
  timestamp ++ ":" ++ body

end ServerAuth

namespace TkServerAuth

/-- The message hashed by src/telemetry-kit-server/src/auth.rs `verify_hmac`:
`format!("{}:{}:{}", timestamp, nonce, body_str)`. -/
def canonicalMessage (timestamp nonce body : String) : String :=
  timestamp ++ ":" ++ nonce ++ ":" ++ body

end TkServerAuth

/-! ## Nonce store (Redis, as used by src/telemetry-kit-server/src/auth.rs)

Keys carry an absolute expiry instant; `GET` of an expired or absent key
yields nothing, `SET EX` overwrites with a fresh expiry. -/

def lookupEntry : List (String × Int) → String → Option Int
  | [], _ => none
  | (k, v) :: rest, key => if k = key then some v else lookupEntry rest key

structure NonceStore where
  entries : List (String × Int)
  deriving DecidableEq

/-- Redis `GET key` at time `now`, as the boolean the middleware reads
(`unwrap_or(false)`). -/
def NonceStore.get (s : NonceStore) (now : Int) (key : String) : Bool :=
  match lookupEntry s.entries key with
  | some expiry => decide (now < expiry)
  | none => false

/-- Redis `SET key EX ttl` at time `now`. -/
def NonceStore.set_ex (s : NonceStore) (now : Int) (key : String) (ttl : Int) :
    NonceStore :=
  ⟨(key, now + ttl) :: s.entries.filter (fun e => e.1 != key)⟩

/-- Rust `str::parse::<i64>` on the digit strings the middleware sees
(optional sign, then decimal digits; empty or non-digit input fails).
The i64 overflow failure case is not modelled — timestamps are far below
2^63. -/
def parseDigitsAux : List Char → Nat → Option Nat
  | [], acc => some acc
  | c :: rest, acc =>
    if 48 ≤ c.toNat && c.toNat ≤ 57 then
      parseDigitsAux rest (acc * 10 + (c.toNat - 48))
    else none

def parseI64 (s : String) : Option Int :=
  match s.data with
  | [] => none
  | '-' :: rest =>
    if rest.isEmpty then none
    else (parseDigitsAux rest 0).map (fun n => -(n : Int))
  | '+' :: rest =>
    if rest.isEmpty then none
    else (parseDigitsAux rest 0).map (fun n => (n : Int))
  | l => (parseDigitsAux l 0).map (fun n => (n : Int))

/-- Result of the authentication middleware: an early error response, or
passing the request on to `next` with the updated shared store. -/
inductive AuthDecision where
  | reject (status : Nat) (message : String)
  | proceed (store : NonceStore)
  deriving DecidableEq

/-- `verify_hmac` from src/telemetry-kit-server/src/auth.rs, for a request
whose headers are all present and whose bearer token resolved to an active
token with the given `secret` (the header-extraction and token-lookup
failures, all 401, are upstream of the logic the claims are about; the
best-effort `last_used_at` update has no bearing on the decision). -/
def TkServerAuth.verify_hmac (secret signature timestamp nonce body : String)
    (now : Int) (store : NonceStore) : AuthDecision :=
  if ServerAuth.verify_signature
      (TkServerAuth.canonicalMessage timestamp nonce body) signature secret = false then
    .reject 401 "Invalid HMAC signature"
  else
    match parseI64 timestamp with
    | none => .reject 400 "Invalid timestamp format"
    | some request_time =>
      if 600 < (now - request_time).natAbs then
        .reject 403 "Timestamp outside acceptable window"
      else if store.get now ("nonce:" ++ nonce) then
        .reject 409 "Duplicate nonce detected"
      else
        .proceed (store.set_ex now ("nonce:" ++ nonce) 600)

/-! ## Local event storage (src/src/storage.rs)

A record of the `events` table; `event_data` is the serialized `Event`,
modelled as the event value itself with its fields beyond `event_id`
opaque in `payload`.  SQL semantics of the four UPDATE/SELECT statements
are modelled directly; storage I/O failures (the `Database` error kind)
are outside the shallow embedding. -/

structure Event where
  event_id : Nat
  payload : String
  deriving DecidableEq

structure EventRecord where
  event_id : Nat
  event : Event
  created_at : Int
  synced_at : Option Int
  retry_count : Nat
  deriving DecidableEq

structure EventStorage where
  records : List EventRecord
  deriving DecidableEq

/-- `INSERT INTO events (event_id, event_data, created_at)`; `synced_at`
NULL, `retry_count` DEFAULT 0. -/
def EventStorage.insert (st : EventStorage) (e : Event) (now : Int) : EventStorage :=
  ⟨st.records ++ [⟨e.event_id, e, now, none, 0⟩]⟩

def insertByCreated (r : EventRecord) : List EventRecord → List EventRecord
  | [] => [r]
  | x :: xs => if r.created_at < x.created_at then r :: x :: xs else x :: insertByCreated r xs

/-- `ORDER BY created_at ASC`. -/
def sortByCreated (l : List EventRecord) : List EventRecord :=
  l.foldr insertByCreated []

/-- `SELECT event_data FROM events WHERE synced_at IS NULL ORDER BY
created_at ASC LIMIT ?1`, rows parsed back into events. -/
def EventStorage.get_unsynced (st : EventStorage) (limit : Nat) : List Event :=
  ((sortByCreated (st.records.filter (fun r => r.synced_at.isNone))).take limit).map
    (fun r => r.event)

/-- `UPDATE events SET synced_at = ?1 WHERE event_id IN (...)` — note the
unconditional overwrite of `synced_at` with the current timestamp. -/
def EventStorage.mark_synced (st : EventStorage) (now : Int) (ids : List Nat) :
    EventStorage :=
  ⟨st.records.map (fun r =>
    if r.event_id ∈ ids then { r with synced_at := some now } else r)⟩

/-- `UPDATE events SET retry_count = retry_count + 1 WHERE event_id IN (...)`. -/
def EventStorage.increment_retry (st : EventStorage) (ids : List Nat) : EventStorage :=
  ⟨st.records.map (fun r =>
    if r.event_id ∈ ids then { r with retry_count := r.retry_count + 1 } else r)⟩

/-- `SELECT COUNT(*) FROM events WHERE synced_at IS NULL`. -/
def EventStorage.unsynced_count (st : EventStorage) : Nat :=
  (st.records.filter (fun r => r.synced_at.isNone)).length

/-! ## Sync protocol types (src/src/sync/mod.rs, src/src/error.rs) -/

structure EventError where
  event_id : Nat
  error : String
  message : String
  deriving DecidableEq

inductive SyncResponse where
  | success (accepted rejected : Nat) (message : String)
  | partialResp (accepted rejected : Nat) (errors : List EventError)
  deriving DecidableEq

def SyncResponse.accepted : SyncResponse → Nat
  | .success a _ _ => a
  | .partialResp a _ _ => a

def SyncResponse.rejected : SyncResponse → Nat
  | .success _ r _ => r
  | .partialResp _ r _ => r

inductive TelemetryError where
  | database (message : String)
  | http (message : String)
  | json (message : String)
  | invalidConfig (message : String)
  | auth (message : String)
  | rateLimitExceeded (retry_after : Nat)
  | serverError (status : Nat) (message : String)
  | maxRetriesExceeded
  | invalidSchema (message : String)
  | io (message : String)
  | machineId (message : String)
  | other (message : String)
  deriving DecidableEq

/-- `TelemetryError::is_retryable`. -/
def TelemetryError.is_retryable : TelemetryError → Bool
  | .rateLimitExceeded _ => true
  | .serverError status _ => decide (500 ≤ status)
  | _ => false

/-! ## Retry strategy (src/src/sync/retry.rs) -/

structure RetryStrategy where
  max_retries : Nat
  base_delay_ms : Nat
  deriving DecidableEq

/-- `should_retry(retry_count) = retry_count < max_retries`. -/
def RetryStrategy.should_retry (s : RetryStrategy) (retry_count : Nat) : Bool :=
  decide (retry_count < s.max_retries)

/-- `delay_for`: `base_delay_ms * 2^retry_count + jitter`, jitter drawn
from 0..1000 and passed in explicitly here. -/
def RetryStrategy.delay_for (s : RetryStrategy) (retry_count jitter : Nat) : Nat :=
  s.base_delay_ms * 2 ^ retry_count + jitter

/-! ## Sync client (src/src/sync/client.rs)

The network is abstracted as the HTTP response an attempt would observe:
status plus the parsed bodies the code would extract from it. -/

structure ErrorDetail where
  code : String
  message : String
  deriving DecidableEq

structure ErrorResponseBody where
  error : ErrorDetail
  retry_after : Option Nat
  deriving DecidableEq

structure HttpResponse where
  status : Nat
  syncBody : SyncResponse
  errorBody : ErrorResponseBody
  text : String
  deriving DecidableEq

/-- The status-code classification at the end of `SyncClient::try_sync`,
match arms in source order. -/
def try_sync_classify (resp : HttpResponse) : Except TelemetryError SyncResponse :=
  if resp.status = 200 then .ok resp.syncBody
  else if resp.status = 207 then .ok resp.syncBody
  else if resp.status = 429 then
    .error (.rateLimitExceeded (resp.errorBody.retry_after.getD 60))
  else if resp.status = 400 ∨ resp.status = 401 ∨ resp.status = 403 ∨
      resp.status = 409 ∨ resp.status = 413 ∨ resp.status = 422 then
    .error (.serverError resp.status
      (resp.errorBody.error.code ++ ": " ++ resp.errorBody.error.message))
  else if 500 ≤ resp.status ∧ resp.status ≤ 599 then
    .error (.serverError resp.status resp.text)
  else
    .error (.other ("Unexpected status code " ++ toString resp.status ++ ": " ++ resp.text))

/-- `SyncClient::try_sync`: empty-batch short circuit, then one request and
its classification. -/
def try_sync (batch : List Event) (resp : HttpResponse) :
    Except TelemetryError SyncResponse :=
  if batch.isEmpty then .ok (.success 0 0 "No events to sync")
  else try_sync_classify resp

/-- The retry loop of `SyncClient::sync`; `responses retry_count` is the
response attempt number `retry_count` observes.  Structural fuel stands in
for the loop; `max_retries + 1` is enough because `should_retry` fails at
`max_retries`. -/
def syncLoop (strategy : RetryStrategy) (batch : List Event)
    (responses : Nat → HttpResponse) : Nat → Nat → Except TelemetryError SyncResponse
  | 0, retry_count => try_sync batch (responses retry_count)
  | fuel + 1, retry_count =>
    match try_sync batch (responses retry_count) with
    | .ok r => .ok r
    | .error e =>
      if e.is_retryable && strategy.should_retry retry_count then
        syncLoop strategy batch responses fuel (retry_count + 1)
      else .error e

/-- `SyncClient::sync`: the DNT gate, then the retry loop. -/
def SyncClient.sync (respect_dnt dnt_enabled : Bool) (strategy : RetryStrategy)
    (batch : List Event) (responses : Nat → HttpResponse) :
    Except TelemetryError SyncResponse :=
  if respect_dnt && dnt_enabled then
    .error (.other "DNT (Do Not Track) is enabled, skipping sync")
  else syncLoop strategy batch responses (strategy.max_retries + 1) 0

/-! ## Auto-sync scheduler (src/src/auto_sync.rs) -/

/-- `AutoSyncTask::sync_once`: fetch one batch of unsynced events, attempt
`client.sync` (its outcome supplied as `syncResult`), then update the store.
Returns the updated store and the propagated result. -/
def sync_once (storage : EventStorage) (batch_size : Nat) (now : Int)
    (syncResult : Except TelemetryError SyncResponse) :
    EventStorage × Except TelemetryError Unit :=
  let events := storage.get_unsynced batch_size
  if events.isEmpty then (storage, .ok ())
  else
    let event_ids := events.map (fun e => e.event_id)
    match syncResult with
    | .ok response =>
      if 0 < response.accepted then (storage.mark_synced now event_ids, .ok ())
      else (storage, .ok ())
    | .error e => (storage.increment_retry event_ids, .error e)

/-! ## Ingestion handler (src/server/src/handlers.rs)

The server-side events table is abstracted to the set of stored
`event_id`s (the only column the handler reads back); Postgres I/O
failures (`database_error` rejections) are outside the shallow embedding. -/

structure ServiceInfo where
  name : String
  version : String
  language : String
  language_version : Option String
  deriving DecidableEq

structure IncomingEvent where
  schema_version : String
  event_id : Nat
  service : ServiceInfo
  user_id : String
  payload : String
  deriving DecidableEq

/-- Rust `str::starts_with` on strings, by character lists (executable in
the kernel, unlike `String.startsWith`). -/
def startsWithAux : List Char → List Char → Bool
  | _, [] => true
  | [], _ :: _ => false
  | c :: cs, p :: ps => c == p && startsWithAux cs ps

def strStartsWith (s pat : String) : Bool :=
  startsWithAux s.data pat.data

/-- `is_supported_schema`: only `1.x.x`. -/
def is_supported_schema (version : String) : Bool :=
  strStartsWith version "1."

/-- `process_event`: the validation chain, duplicate check, and insert. -/
def process_event (db : List Nat) (e : IncomingEvent) :
    Except (String × String) (List Nat) :=
  if ¬ is_supported_schema e.schema_version then
    .error ("unsupported_schema", "Unsupported schema version: " ++ e.schema_version)
  else if e.service.name = "" then
    .error ("invalid_schema", "Missing required field: service.name")
  else if e.service.version = "" then
    .error ("invalid_schema", "Missing required field: service.version")
  else if ¬ strStartsWith e.user_id "client_" then
    .error ("invalid_schema", "User ID must start with client_")
  else if e.event_id ∈ db then
    .error ("duplicate", "Event already ingested")
  else
    .ok (db ++ [e.event_id])

/-- The per-event loop of `ingest`: each event is processed against the
database state left by its predecessors; a rejection records an error and
moves on. -/
def processEvents : List Nat → List IncomingEvent → Nat → List EventError →
    Nat × List EventError × List Nat
  | db, [], accepted, errors => (accepted, errors, db)
  | db, e :: rest, accepted, errors =>
    match process_event db e with
    | .ok db2 => processEvents db2 rest (accepted + 1) errors
    | .error (code, msg) =>
      processEvents db rest accepted (errors ++ [⟨e.event_id, code, msg⟩])

inductive IngestOutcome where
  | response (status : Nat) (accepted rejected : Nat) (errors : List EventError)
  | noContent
  | badRequest (message : String)
  deriving DecidableEq

/-- The X-Batch-Size header check: present and different from the actual
count. -/
def hdrMismatch : Option Nat → Nat → Bool
  | some header_size, n => header_size != n
  | none, _ => false

/-- `ingest` after authentication and the org/app check: batch-level
validation, the DNT drop, the per-event loop, and the aggregate response. -/
def ingest (db : List Nat) (events : List IncomingEvent)
    (batch_size_header : Option Nat) (dnt : Bool) : IngestOutcome × List Nat :=
  if events.isEmpty then
    (.badRequest "Batch must contain at least one event", db)
  else if 1000 < events.length then
    (.badRequest "Batch size exceeds maximum of 1000 events", db)
  else if hdrMismatch batch_size_header events.length then
    (.badRequest "X-Batch-Size header does not match actual batch size", db)
  else if dnt then (.noContent, db)
  else
    match processEvents db events 0 [] with
    | (accepted, errors, db2) =>
      if errors.isEmpty then (.response 200 accepted errors.length [], db2)
      else if 0 < accepted then (.response 207 accepted errors.length errors, db2)
      else (.response 400 accepted errors.length errors, db2)

/-! ## Rate limiter (src/telemetry-kit-server/src/rate_limit.rs)

The Redis counter store maps keys to (count, absolute expiry); INCR on an
absent or expired key restarts from zero, and the pipelined EXPIRE refreshes
the expiry on every call.  Times are `Nat` Unix seconds (the i64 timestamps
involved are positive, and `/` is floor division on them). -/

inductive TokenTier where
  | free
  | pro
  | business
  | enterprise
  deriving DecidableEq

structure RateLimitConfig where
  free_rpm : Nat
  pro_rpm : Nat
  business_rpm : Nat
  deriving DecidableEq

def lookupCounter : List (String × Nat × Nat) → String → Option (Nat × Nat)
  | [], _ => none
  | (k, v) :: rest, key => if k = key then some v else lookupCounter rest key

structure CounterStore where
  entries : List (String × Nat × Nat)
  deriving DecidableEq

/-- The live counter value Redis sees at time `now`: an absent or expired
key counts as zero. -/
def CounterStore.currentCount (s : CounterStore) (now : Nat) (key : String) : Nat :=
  match lookupCounter s.entries key with
  | some (c, expiry) => if now < expiry then c else 0
  | none => 0

/-- `RedisClient::incr_with_expiry`: atomic INCR plus EXPIRE. -/
def CounterStore.incr_with_expiry (s : CounterStore) (now : Nat) (key : String)
    (ttl : Nat) : Nat × CounterStore :=
  let count := s.currentCount now key + 1
  (count, ⟨(key, count, now + ttl) :: s.entries.filter (fun e => e.1 != key)⟩)

inductive RateLimitOutcome where
  | allowed (headers : List (String × String))
  | limited (retry_after : Nat) (headers : List (String × String))
  deriving DecidableEq

/-- The tier-to-ceiling map at the top of `rate_limit`; Enterprise has no
ceiling (the middleware returns `next.run(request)` immediately). -/
def tierLimit (cfg : RateLimitConfig) : TokenTier → Option Nat
  | .free => some cfg.free_rpm
  | .pro => some cfg.pro_rpm
  | .business => some cfg.business_rpm
  | .enterprise => none

/-- `rate_limit` middleware for an authenticated token. -/
def rate_limit (cfg : RateLimitConfig) (tier : TokenTier) (token_id : String)
    (now : Nat) (store : CounterStore) : RateLimitOutcome × CounterStore :=
  match tierLimit cfg tier with
  | none => (.allowed [], store)
  | some limit =>
    let minute_window := now / 60
    let key := "ratelimit:" ++ token_id ++ ":" ++ toString minute_window
    match store.incr_with_expiry now key 60 with
    | (count, store2) =>
      if limit < count then
        let reset_at := (minute_window + 1) * 60
        let retry_after := reset_at - now
        (.limited retry_after
          [("X-RateLimit-Limit", toString limit),
           ("X-RateLimit-Remaining", "0"),
           ("X-RateLimit-Reset", toString reset_at),
           ("Retry-After", toString retry_after)], store2)
      else
        let remaining := limit - count
        let reset_at := (minute_window + 1) * 60
        (.allowed
          [("X-RateLimit-Limit", toString limit),
           ("X-RateLimit-Remaining", toString remaining),
           ("X-RateLimit-Reset", toString reset_at)], store2)

/-- A sequence of requests for one token, threaded through the shared
counter store. -/
def runRequests (cfg : RateLimitConfig) (tier : TokenTier) (token_id : String) :
    List Nat → CounterStore → List RateLimitOutcome × CounterStore
  | [], store => ([], store)
  | t :: ts, store =>
    let r1 := rate_limit cfg tier token_id t store
    let rest := runRequests cfg tier token_id ts r1.2
    (r1.1 :: rest.1, rest.2)

/-- The rate-limit key for a token in a given minute window. -/
def rlKey (token_id : String) (w : Nat) : String :=
  "ratelimit:" ++ token_id ++ ":" ++ toString w

def isAllowed : RateLimitOutcome → Bool
  | .allowed _ => true
  | .limited _ _ => false

/-- The outcome `rate_limit` produces for a request at time `t` in minute
window `w` when the post-increment counter reads `count` (read off the two
branches of the middleware). -/
def expectedOutcome (limit w count t : Nat) : RateLimitOutcome :=
  if limit < count then
    .limited ((w + 1) * 60 - t)
      [("X-RateLimit-Limit", toString limit),
       ("X-RateLimit-Remaining", "0"),
       ("X-RateLimit-Reset", toString ((w + 1) * 60)),
       ("Retry-After", toString ((w + 1) * 60 - t))]
  else
    .allowed
      [("X-RateLimit-Limit", toString limit),
       ("X-RateLimit-Remaining", toString (limit - count)),
       ("X-RateLimit-Reset", toString ((w + 1) * 60))]

/-- The outcome sequence for requests in one window when the counter starts
at `count`. -/
def expectedOutcomes (limit w count : Nat) : List Nat → List RateLimitOutcome
  | [] => []
  | t :: ts => expectedOutcome limit w (count + 1) t :: expectedOutcomes limit w (count + 1) ts

/-! ## Counting helpers used by the verification -/

/-- Big-endian value of a byte list (base 256). -/
def byteNum : List Nat → Nat
  | [] => 0
  | b :: rest => b * 256 ^ rest.length + byteNum rest

/-- A body string of `n` letters. -/
def aBody (n : Nat) : String :=
  String.mk (List.replicate n 'a')

-- Sanity check against the FIPS 180-4 test vector for "abc".
example :
    hexEncode (sha256 (strBytes "abc")) =
      "ba7816bf8f01cfea414140de5dae2223b00361a396177a9cb410ff61f20015ad" := by
  decide

-- Sanity check against RFC 4231 test case 2 for HMAC-SHA256.
example :
    hexEncode (hmacSha256 (strBytes "Jefe") (strBytes "what do ya want for nothing?")) =
      "5bdcc146bf60754e6a042426089575c75a003f089d2739839dec58b964ec3843" := by
  decide

/-! ## Helper lemmas -/

theorem nat_or_eq_zero (x y : Nat) : x ||| y = 0 ↔ x = 0 ∧ y = 0 := by
  constructor
  · intro h
    constructor <;>
    · apply Nat.zero_of_testBit_eq_false
      intro i
      have hb := congrArg (fun n => Nat.testBit n i) h
      simp [Nat.testBit_lor, Nat.zero_testBit] at hb
      simp [hb]
  · rintro ⟨rfl, rfl⟩
    rfl

theorem diff_foldl_eq_zero (l : List (Nat × Nat)) : ∀ d : Nat,
    (l.foldl (fun diff p => diff ||| (p.1 ^^^ p.2)) d = 0 ↔
      d = 0 ∧ ∀ p ∈ l, p.1 = p.2) := by
  induction l with
  | nil => simp
  | cons p rest ih =>
    intro d
    simp only [List.foldl_cons, ih, nat_or_eq_zero, Nat.xor_eq_zero,
      List.forall_mem_cons, and_assoc]

theorem zip_forall_eq (a : List Nat) : ∀ b : List Nat, a.length = b.length →
    ((∀ p ∈ a.zip b, p.1 = p.2) ↔ a = b) := by
  induction a with
  | nil =>
    intro b hb
    cases b with
    | nil => simp
    | cons c cs => simp at hb
  | cons x xs ih =>
    intro b hb
    cases b with
    | nil => simp at hb
    | cons c cs =>
      have hlen : xs.length = cs.length := by simpa using hb
      rw [List.zip_cons_cons, List.forall_mem_cons, ih cs hlen]
      simp

theorem constant_time_eq_iff (a b : List Nat) :
    constant_time_eq a b = true ↔ a = b := by
  unfold constant_time_eq
  by_cases h : a.length = b.length
  · rw [if_neg (by simp [h])]
    rw [beq_iff_eq, diff_foldl_eq_zero]
    constructor
    · rintro ⟨-, h2⟩
      exact (zip_forall_eq a b h).mp h2
    · intro hab
      exact ⟨rfl, (zip_forall_eq a b h).mpr hab⟩
  · rw [if_pos (by simp [h])]
    simp only [Bool.false_eq_true, false_iff]
    intro hab
    exact h (congrArg List.length hab)

theorem constant_time_eq_self (a : List Nat) : constant_time_eq a a = true :=
  (constant_time_eq_iff a a).mpr rfl

theorem zip_map_self {α : Type} (l : List α) (f : α → α) :
    ∀ p ∈ l.zip (l.map f), p.2 = f p.1 := by
  induction l with
  | nil => simp
  | cons x xs ih =>
    intro p hp
    rw [List.map_cons, List.zip_cons_cons] at hp
    rcases List.mem_cons.mp hp with rfl | hp2
    · rfl
    · exact ih p hp2

theorem wordBytes_length (w : Nat) : (Sha256.wordBytes w).length = 4 := rfl

theorem wordBytes_mem_lt (w : Nat) : ∀ x ∈ Sha256.wordBytes w, x < 256 := by
  simp only [Sha256.wordBytes, List.mem_cons, List.not_mem_nil, or_false]
  intro x hx
  rcases hx with rfl | rfl | rfl | rfl <;> omega

theorem digestBytes_length (st : Sha256.HashState) :
    (Sha256.digestBytes st).length = 32 := by
  simp [Sha256.digestBytes, Sha256.wordBytes]

theorem digestBytes_mem_lt (st : Sha256.HashState) :
    ∀ x ∈ Sha256.digestBytes st, x < 256 := by
  intro x hx
  simp only [Sha256.digestBytes, List.mem_append] at hx
  rcases hx with ((((((hx | hx) | hx) | hx) | hx) | hx) | hx) | hx <;>
    exact wordBytes_mem_lt _ x hx

theorem sha256_length (msg : List Nat) : (sha256 msg).length = 32 :=
  digestBytes_length _

theorem sha256_mem_lt (msg : List Nat) : ∀ x ∈ sha256 msg, x < 256 :=
  digestBytes_mem_lt _

theorem hmacSha256_length (key msg : List Nat) :
    (hmacSha256 key msg).length = 32 :=
  sha256_length _

theorem hmacSha256_mem_lt (key msg : List Nat) :
    ∀ x ∈ hmacSha256 key msg, x < 256 :=
  sha256_mem_lt _

theorem byteNum_lt (l : List Nat) (h : ∀ x ∈ l, x < 256) :
    byteNum l < 256 ^ l.length := by
  induction l with
  | nil => simp [byteNum]
  | cons b rest ih =>
    have hb : b < 256 := h b (List.mem_cons_self b rest)
    have hr : byteNum rest < 256 ^ rest.length :=
      ih fun x hx => h x (List.mem_cons_of_mem b hx)
    have h1 : b * 256 ^ rest.length + byteNum rest < (b + 1) * 256 ^ rest.length := by
      have := Nat.add_lt_add_left hr (b * 256 ^ rest.length)
      calc b * 256 ^ rest.length + byteNum rest
          < b * 256 ^ rest.length + 256 ^ rest.length := this
        _ = (b + 1) * 256 ^ rest.length := by ring
    have h2 : (b + 1) * 256 ^ rest.length ≤ 256 * 256 ^ rest.length :=
      Nat.mul_le_mul_right _ hb
    calc byteNum (b :: rest) = b * 256 ^ rest.length + byteNum rest := rfl
      _ < (b + 1) * 256 ^ rest.length := h1
      _ ≤ 256 * 256 ^ rest.length := h2
      _ = 256 ^ (b :: rest).length := by
          simp [List.length_cons, pow_succ]
          ring

theorem byteNum_inj (l1 : List Nat) : ∀ l2 : List Nat, l1.length = l2.length →
    (∀ x ∈ l1, x < 256) → (∀ x ∈ l2, x < 256) →
    byteNum l1 = byteNum l2 → l1 = l2 := by
  induction l1 with
  | nil =>
    intro l2 hlen _ _ _
    cases l2 with
    | nil => rfl
    | cons c cs => simp at hlen
  | cons b rest ih =>
    intro l2 hlen h1 h2 heq
    cases l2 with
    | nil => simp at hlen
    | cons c rest2 =>
      have hr : rest.length = rest2.length := by simpa using hlen
      have hb : b < 256 := h1 b (List.mem_cons_self _ _)
      have hc : c < 256 := h2 c (List.mem_cons_self _ _)
      have e1 : byteNum rest < 256 ^ rest2.length := by
        rw [← hr]
        exact byteNum_lt rest fun x hx => h1 x (List.mem_cons_of_mem _ hx)
      have e2 : byteNum rest2 < 256 ^ rest2.length :=
        byteNum_lt rest2 fun x hx => h2 x (List.mem_cons_of_mem _ hx)
      have heq2 : b * 256 ^ rest2.length + byteNum rest =
          c * 256 ^ rest2.length + byteNum rest2 := by
        have : byteNum (b :: rest) = byteNum (c :: rest2) := heq
        simpa [byteNum, hr] using this
      have hM : 0 < 256 ^ rest2.length := Nat.pos_pow_of_pos _ (by norm_num)
      have hbc : b = c := by
        have hdiv1 : (256 ^ rest2.length * b + byteNum rest) / 256 ^ rest2.length = b := by
          rw [Nat.mul_add_div hM, Nat.div_eq_of_lt e1, Nat.add_zero]
        have hdiv2 : (256 ^ rest2.length * c + byteNum rest2) / 256 ^ rest2.length = c := by
          rw [Nat.mul_add_div hM, Nat.div_eq_of_lt e2, Nat.add_zero]
        rw [← hdiv1, ← hdiv2]
        rw [Nat.mul_comm (256 ^ rest2.length) b, Nat.mul_comm (256 ^ rest2.length) c, heq2]
      subst hbc
      have hrest : byteNum rest = byteNum rest2 := by omega
      have := ih rest2 hr (fun x hx => h1 x (List.mem_cons_of_mem _ hx))
        (fun x hx => h2 x (List.mem_cons_of_mem _ hx)) hrest
      rw [this]

/-- By counting, HMAC-SHA256 (hence `sign` with every other input fixed)
cannot be injective in the body: some two distinct bodies share a
signature. -/
theorem sign_collision : ∃ m k : Nat, m ≠ k ∧
    HmacAuth.sign "sk" "ts" "nn" (aBody m) = HmacAuth.sign "sk" "ts" "nn" (aBody k) := by
  have hfin : ∀ j : Nat,
      byteNum (hmacSha256 (strBytes "sk")
        (strBytes ("ts" ++ ":" ++ "nn" ++ ":" ++ aBody j))) < 256 ^ 32 := by
    intro j
    have h1 := hmacSha256_length (strBytes "sk")
      (strBytes ("ts" ++ ":" ++ "nn" ++ ":" ++ aBody j))
    have h2 := hmacSha256_mem_lt (strBytes "sk")
      (strBytes ("ts" ++ ":" ++ "nn" ++ ":" ++ aBody j))
    have := byteNum_lt _ h2
    rwa [h1] at this
  obtain ⟨m, k, hmk, hf⟩ := Finite.exists_ne_map_eq_of_infinite
    (fun j : Nat =>
      (⟨byteNum (hmacSha256 (strBytes "sk")
        (strBytes ("ts" ++ ":" ++ "nn" ++ ":" ++ aBody j))), hfin j⟩ : Fin (256 ^ 32)))
  refine ⟨m, k, hmk, ?_⟩
  have hval := congrArg Fin.val hf
  have hdig := byteNum_inj _ _
    (by rw [hmacSha256_length, hmacSha256_length])
    (hmacSha256_mem_lt _ _) (hmacSha256_mem_lt _ _) hval
  show hexEncode _ = hexEncode _
  exact congrArg hexEncode hdig

/-! ## Claim C8 -/

/-- Claim C8, counterexample to the universally quantified alteration
clause: it is not the case that for every secret, timestamp, nonce and
every two distinct bodies, verifying the signature of one body against the
other fails — HMAC-SHA256 digests live in a finite set, so some two
distinct bodies collide and the altered verification succeeds. -/
theorem c8_counterexample :
    ¬ (∀ secret timestamp nonce body body2 : String, body ≠ body2 →
        HmacAuth.verify secret timestamp nonce body2
          (HmacAuth.sign secret timestamp nonce body) = false) := by
  intro h
  obtain ⟨m, k, hmk, hs⟩ := sign_collision
  have hb : aBody m ≠ aBody k := by
    intro hc
    apply hmk
    have hlen := congrArg (fun s => s.data.length) hc
    simpa [aBody] using hlen
  have h1 := h "sk" "ts" "nn" (aBody m) (aBody k) hb
  rw [hs] at h1
  have h2 : HmacAuth.verify "sk" "ts" "nn" (aBody k)
      (HmacAuth.sign "sk" "ts" "nn" (aBody k)) = true := by
    unfold HmacAuth.verify
    exact constant_time_eq_self _
  rw [h1] at h2
  exact Bool.false_ne_true h2

/-- Claim C8 (amended): verifying a freshly produced signature under the
same inputs always succeeds; verifying it under any altered inputs succeeds
exactly when the recomputed HMAC-SHA256 signature has the same bytes as the
original (so any alteration that changes the digest — as every
single-component alteration of the concrete test vector does — makes
verification false); and the constant-time comparator returns false both
for equal-length unequal byte strings and for strings of different
lengths. -/
theorem c8_amended :
    (∀ secret timestamp nonce body : String,
      HmacAuth.verify secret timestamp nonce body
        (HmacAuth.sign secret timestamp nonce body) = true) ∧
    (∀ secret secret2 timestamp timestamp2 nonce nonce2 body body2 : String,
      HmacAuth.verify secret2 timestamp2 nonce2 body2
          (HmacAuth.sign secret timestamp nonce body) = true ↔
        strBytes (HmacAuth.sign secret timestamp nonce body) =
          strBytes (HmacAuth.sign secret2 timestamp2 nonce2 body2)) ∧
    (∀ a b : List Nat, a.length = b.length → a ≠ b →
      constant_time_eq a b = false) ∧
    (∀ a b : List Nat, a.length ≠ b.length → constant_time_eq a b = false) ∧
    (HmacAuth.verify "test_secret_key" "1732003201" "n0" "eventsA"
        (HmacAuth.sign "test_secret_key" "1732003200" "n0" "eventsA") = false ∧
      HmacAuth.verify "test_secret_key" "1732003200" "n1" "eventsA"
        (HmacAuth.sign "test_secret_key" "1732003200" "n0" "eventsA") = false ∧
      HmacAuth.verify "test_secret_key" "1732003200" "n0" "eventsB"
        (HmacAuth.sign "test_secret_key" "1732003200" "n0" "eventsA") = false ∧
      HmacAuth.verify "test_secret_kex" "1732003200" "n0" "eventsA"
        (HmacAuth.sign "test_secret_key" "1732003200" "n0" "eventsA") = false) := by
  refine ⟨?_, ?_, ?_, ?_, ?_⟩
  · intro secret timestamp nonce body
    unfold HmacAuth.verify
    exact constant_time_eq_self _
  · intro secret secret2 timestamp timestamp2 nonce nonce2 body body2
    unfold HmacAuth.verify
    exact constant_time_eq_iff _ _
  · intro a b _ hne
    cases hq : constant_time_eq a b with
    | false => rfl
    | true => exact absurd ((constant_time_eq_iff a b).mp hq) hne
  · intro a b hne
    cases hq : constant_time_eq a b with
    | false => rfl
    | true =>
      exact absurd (congrArg List.length ((constant_time_eq_iff a b).mp hq)) hne
  · decide

/-- Claim C8 witness: the amended theorem applied at concrete inputs. -/
theorem c8_witness :
    HmacAuth.verify "k" "t" "n" "b" (HmacAuth.sign "k" "t" "n" "b") = true ∧
    constant_time_eq [1, 2] [1, 3] = false ∧
    constant_time_eq [1] [2, 3] = false :=
  ⟨c8_amended.1 "k" "t" "n" "b",
   c8_amended.2.2.1 [1, 2] [1, 3] rfl (by decide),
   c8_amended.2.2.2.1 [1] [2, 3] (by decide)⟩

/-! ## Claim C1 -/

/-- Claim C1: evaluation at the failing input.  The SDK signs
`timestamp:nonce:body`, but the middleware in src/server/src/auth.rs
recomputes the HMAC over `timestamp:body` (no nonce) and therefore rejects
the SDK signature (the 401 branch), while the middleware in
src/telemetry-kit-server/src/auth.rs recomputes over `timestamp:nonce:body`
and accepts it. -/
theorem c1_server_verify_rejects_sdk_signature :
    ServerAuth.verify_signature (ServerAuth.canonicalMessage "1732003200" "events")
      (HmacAuth.sign "test_secret" "1732003200"
        "550e8400-e29b-41d4-a716-446655440000" "events")
      "test_secret" = false ∧
    ServerAuth.verify_signature
      (TkServerAuth.canonicalMessage "1732003200"
        "550e8400-e29b-41d4-a716-446655440000" "events")
      (HmacAuth.sign "test_secret" "1732003200"
        "550e8400-e29b-41d4-a716-446655440000" "events")
      "test_secret" = true := by
  decide

/-! ## Claim C2 -/

/-- Claim C2: a request passing signature and timestamp checks with a fresh
nonce is let through with the nonce recorded under a 600-second TTL before
processing continues, and any later request presenting the same nonce while
that record exists — whatever its timestamp, body, signature or token — is
rejected with 409 and not processed. -/
theorem c2_nonce_replay_guard
    (secret signature timestamp nonce body : String)
    (secret2 signature2 timestamp2 body2 : String)
    (now now2 request_time request_time2 : Int) (store : NonceStore)
    (hsig : ServerAuth.verify_signature
      (TkServerAuth.canonicalMessage timestamp nonce body) signature secret = true)
    (hts : parseI64 timestamp = some request_time)
    (hskew : (now - request_time).natAbs ≤ 600)
    (hfresh : store.get now ("nonce:" ++ nonce) = false)
    (hsig2 : ServerAuth.verify_signature
      (TkServerAuth.canonicalMessage timestamp2 nonce body2) signature2 secret2 = true)
    (hts2 : parseI64 timestamp2 = some request_time2)
    (hskew2 : (now2 - request_time2).natAbs ≤ 600)
    (hwithin : now2 < now + 600) :
    TkServerAuth.verify_hmac secret signature timestamp nonce body now store =
      .proceed (store.set_ex now ("nonce:" ++ nonce) 600) ∧
    TkServerAuth.verify_hmac secret2 signature2 timestamp2 nonce body2 now2
      (store.set_ex now ("nonce:" ++ nonce) 600) =
      .reject 409 "Duplicate nonce detected" := by
  have hc1 : ¬ (ServerAuth.verify_signature
      (TkServerAuth.canonicalMessage timestamp nonce body) signature secret = false) := by
    rw [hsig]
    simp
  have hc1b : ¬ (ServerAuth.verify_signature
      (TkServerAuth.canonicalMessage timestamp2 nonce body2) signature2 secret2 = false) := by
    rw [hsig2]
    simp
  have hc2 : ¬ (600 < (now - request_time).natAbs) := by omega
  have hc2b : ¬ (600 < (now2 - request_time2).natAbs) := by omega
  constructor
  · unfold TkServerAuth.verify_hmac
    rw [if_neg hc1, hts]
    simp only [if_neg hc2, hfresh]
    simp
  · unfold TkServerAuth.verify_hmac
    rw [if_neg hc1b, hts2]
    simp only [if_neg hc2b]
    have hget : (store.set_ex now ("nonce:" ++ nonce) 600).get now2 ("nonce:" ++ nonce) = true := by
      simp [NonceStore.set_ex, NonceStore.get, lookupEntry, hwithin]
    rw [hget]
    simp

/-- Claim C2 witness: the guard applied to a concrete replayed request. -/
theorem c2_witness :
    TkServerAuth.verify_hmac "sec" (HmacAuth.sign "sec" "1000" "n1" "events")
      "1000" "n1" "events" 1000 ⟨[]⟩ =
      .proceed (NonceStore.set_ex ⟨[]⟩ 1000 ("nonce:" ++ "n1") 600) ∧
    TkServerAuth.verify_hmac "sec" (HmacAuth.sign "sec" "1000" "n1" "events")
      "1000" "n1" "events" 1100
      (NonceStore.set_ex ⟨[]⟩ 1000 ("nonce:" ++ "n1") 600) =
      .reject 409 "Duplicate nonce detected" :=
  c2_nonce_replay_guard "sec" (HmacAuth.sign "sec" "1000" "n1" "events")
    "1000" "n1" "events" "sec" (HmacAuth.sign "sec" "1000" "n1" "events")
    "1000" "events" 1000 1100 1000 1000 ⟨[]⟩
    (by decide) (by decide) (by decide) (by decide)
    (by decide) (by decide) (by decide) (by decide)

/-! ## Claim C3 -/

/-- Claim C3, counterexample: with two pending events and a partial (207)
response accepting one and rejecting the other, `sync_once` marks BOTH ids
synced — the rejected event does not remain pending (no pending record is
left at all). -/
theorem c3_counterexample :
    ((sync_once ⟨[⟨1, ⟨1, "p1"⟩, 0, none, 0⟩, ⟨2, ⟨2, "p2"⟩, 1, none, 0⟩]⟩ 10 100
        (.ok (.partialResp 1 1
          [⟨2, "invalid_schema", "User ID must start with client_"⟩]))).1.records.map
      (fun r => (r.event_id, r.synced_at))) = [(1, some 100), (2, some 100)] ∧
    (sync_once ⟨[⟨1, ⟨1, "p1"⟩, 0, none, 0⟩, ⟨2, ⟨2, "p2"⟩, 1, none, 0⟩]⟩ 10 100
        (.ok (.partialResp 1 1
          [⟨2, "invalid_schema", "User ID must start with client_"⟩]))).1.unsynced_count = 0 := by
  decide

/-- Claim C3 (amended): when the attempted batch is nonempty and the
response reports at least one accepted event, the WHOLE attempted id set is
marked synced (rejected events of a partial response included); when the
response reports zero accepted events nothing is marked; when the attempt
fails, `increment_retry` is applied to the whole attempted id set, no id is
marked synced, and the error propagates. -/
theorem c3_amended (storage : EventStorage) (batch_size : Nat) (now : Int)
    (resp : SyncResponse) (e : TelemetryError) :
    (storage.get_unsynced batch_size ≠ [] → 0 < resp.accepted →
      sync_once storage batch_size now (.ok resp) =
        (storage.mark_synced now
          ((storage.get_unsynced batch_size).map (fun ev => ev.event_id)), .ok ())) ∧
    (resp.accepted = 0 →
      sync_once storage batch_size now (.ok resp) = (storage, .ok ())) ∧
    (storage.get_unsynced batch_size ≠ [] →
      sync_once storage batch_size now (.error e) =
        (storage.increment_retry
          ((storage.get_unsynced batch_size).map (fun ev => ev.event_id)), .error e)) := by
  refine ⟨?_, ?_, ?_⟩
  · intro hne hacc
    unfold sync_once
    have h1 : (storage.get_unsynced batch_size).isEmpty = false := by
      simp [List.isEmpty_iff, hne]
    simp only [h1, Bool.false_eq_true, if_false, if_pos hacc]
  · intro hacc
    unfold sync_once
    by_cases h1 : (storage.get_unsynced batch_size).isEmpty
    · simp only [h1, if_true]
    · simp only [eq_false_of_ne_true h1, Bool.false_eq_true, if_false]
      rw [if_neg (by omega)]
  · intro hne
    unfold sync_once
    have h1 : (storage.get_unsynced batch_size).isEmpty = false := by
      simp [List.isEmpty_iff, hne]
    simp only [h1, Bool.false_eq_true, if_false]

/-- Claim C3 witness: the amended behaviour at a concrete store, for both a
partial response and a failed attempt. -/
theorem c3_witness :
    sync_once ⟨[⟨1, ⟨1, "p1"⟩, 0, none, 0⟩, ⟨2, ⟨2, "p2"⟩, 1, none, 0⟩]⟩ 10 100
        (.ok (.partialResp 1 1 [⟨2, "invalid_schema", "rejected"⟩])) =
      ((⟨[⟨1, ⟨1, "p1"⟩, 0, none, 0⟩, ⟨2, ⟨2, "p2"⟩, 1, none, 0⟩]⟩ :
          EventStorage).mark_synced 100
        (((⟨[⟨1, ⟨1, "p1"⟩, 0, none, 0⟩, ⟨2, ⟨2, "p2"⟩, 1, none, 0⟩]⟩ :
          EventStorage).get_unsynced 10).map (fun ev => ev.event_id)), .ok ()) ∧
    sync_once ⟨[⟨1, ⟨1, "p1"⟩, 0, none, 0⟩, ⟨2, ⟨2, "p2"⟩, 1, none, 0⟩]⟩ 10 100
        (.error (.serverError 500 "boom")) =
      ((⟨[⟨1, ⟨1, "p1"⟩, 0, none, 0⟩, ⟨2, ⟨2, "p2"⟩, 1, none, 0⟩]⟩ :
          EventStorage).increment_retry
        (((⟨[⟨1, ⟨1, "p1"⟩, 0, none, 0⟩, ⟨2, ⟨2, "p2"⟩, 1, none, 0⟩]⟩ :
          EventStorage).get_unsynced 10).map (fun ev => ev.event_id)),
        .error (.serverError 500 "boom")) :=
  ⟨(c3_amended ⟨[⟨1, ⟨1, "p1"⟩, 0, none, 0⟩, ⟨2, ⟨2, "p2"⟩, 1, none, 0⟩]⟩ 10 100
      (.partialResp 1 1 [⟨2, "invalid_schema", "rejected"⟩])
      (.serverError 500 "boom")).1 (by decide) (by decide),
   (c3_amended ⟨[⟨1, ⟨1, "p1"⟩, 0, none, 0⟩, ⟨2, ⟨2, "p2"⟩, 1, none, 0⟩]⟩ 10 100
      (.partialResp 1 1 [⟨2, "invalid_schema", "rejected"⟩])
      (.serverError 500 "boom")).2.2 (by decide)⟩

/-! ## Claim C4 -/

/-- Claim C4, counterexample: re-marking an already-synced record at a
later timestamp does NOT leave the state unchanged — `synced_at` is
overwritten (here from 5 to 10). -/
theorem c4_counterexample :
    EventStorage.mark_synced ⟨[⟨1, ⟨1, "p"⟩, 0, some 5, 0⟩]⟩ 10 [1] ≠
      ⟨[⟨1, ⟨1, "p"⟩, 0, some 5, 0⟩]⟩ := by
  decide

/-- Claim C4 (amended): `mark_synced` is total (no error path besides
storage failure) and a listed record — already synced or not — ends synced
with `synced_at` set to the timestamp of THIS call, every other field and
every unlisted record untouched; repeating the call with the same
timestamp is a no-op. -/
theorem c4_amended (st : EventStorage) (now : Int) (ids : List Nat) :
    (st.mark_synced now ids).mark_synced now ids = st.mark_synced now ids ∧
    (st.mark_synced now ids).records.length = st.records.length ∧
    (∀ p ∈ st.records.zip (st.mark_synced now ids).records,
      p.2.event_id = p.1.event_id ∧ p.2.event = p.1.event ∧
      p.2.created_at = p.1.created_at ∧ p.2.retry_count = p.1.retry_count ∧
      p.2.synced_at = (if p.1.event_id ∈ ids then some now else p.1.synced_at)) := by
  refine ⟨?_, ?_, ?_⟩
  · unfold EventStorage.mark_synced
    simp only [List.map_map, EventStorage.mk.injEq]
    apply List.map_congr_left
    intro r _
    by_cases h : r.event_id ∈ ids
    · simp [Function.comp, h]
    · simp [Function.comp, h]
  · simp [EventStorage.mark_synced]
  · intro p hp
    have h2 := zip_map_self st.records
      (fun r => if r.event_id ∈ ids then { r with synced_at := some now } else r) p hp
    by_cases h : p.1.event_id ∈ ids
    · simp only [h, if_pos] at h2 ⊢
      rw [h2]
      simp
    · simp only [h, if_neg, not_false_iff] at h2 ⊢
      rw [h2]
      simp [h]

/-- Claim C4 witness: the amended behaviour at a concrete already-synced
record. -/
theorem c4_witness :
    (EventStorage.mark_synced ⟨[⟨1, ⟨1, "p"⟩, 0, some 5, 0⟩]⟩ 10 [1]).mark_synced 10 [1] =
      EventStorage.mark_synced ⟨[⟨1, ⟨1, "p"⟩, 0, some 5, 0⟩]⟩ 10 [1] ∧
    (∀ p ∈ (⟨[⟨1, ⟨1, "p"⟩, 0, some 5, 0⟩]⟩ : EventStorage).records.zip
        ((⟨[⟨1, ⟨1, "p"⟩, 0, some 5, 0⟩]⟩ : EventStorage).mark_synced 10 [1]).records,
      p.2.event_id = p.1.event_id ∧ p.2.event = p.1.event ∧
      p.2.created_at = p.1.created_at ∧ p.2.retry_count = p.1.retry_count ∧
      p.2.synced_at = (if p.1.event_id ∈ [1] then some 10 else p.1.synced_at)) :=
  ⟨(c4_amended ⟨[⟨1, ⟨1, "p"⟩, 0, some 5, 0⟩]⟩ 10 [1]).1,
   (c4_amended ⟨[⟨1, ⟨1, "p"⟩, 0, some 5, 0⟩]⟩ 10 [1]).2.2⟩

/-! ## Claim C5 -/

/-- Claim C5: with `respect_dnt` set and DNT enabled, `sync` short-circuits
before any network call (the result does not depend on what the network
would answer), but it returns the error
`Other("DNT (Do Not Track) is enabled, skipping sync")` — an `Err`, not a
successful no-op. -/
theorem c5_dnt_gate_returns_error (strategy : RetryStrategy) (batch : List Event)
    (responses responses2 : Nat → HttpResponse) :
    SyncClient.sync true true strategy batch responses =
      .error (.other "DNT (Do Not Track) is enabled, skipping sync") ∧
    SyncClient.sync true true strategy batch responses =
      SyncClient.sync true true strategy batch responses2 := by
  unfold SyncClient.sync
  simp

/-! ## Claim C10 -/

/-- Claim C10: `increment_retry` inserts and deletes nothing (the record
list keeps its length) and rewrites each record whose id is listed to the
same record with `retry_count` one higher — `event_id`, the stored event
data, `created_at` and `synced_at` are untouched (so pending records stay
pending and synced records stay synced), and unlisted records are returned
verbatim. -/
theorem c10_increment_retry_frame (st : EventStorage) (ids : List Nat)
    (hne : ids ≠ []) :
    (st.increment_retry ids).records.length = st.records.length ∧
    (∀ p ∈ st.records.zip (st.increment_retry ids).records,
      p.2.event_id = p.1.event_id ∧ p.2.event = p.1.event ∧
      p.2.created_at = p.1.created_at ∧ p.2.synced_at = p.1.synced_at ∧
      p.2.retry_count =
        (if p.1.event_id ∈ ids then p.1.retry_count + 1 else p.1.retry_count)) := by
  refine ⟨by simp [EventStorage.increment_retry], ?_⟩
  intro p hp
  have h2 := zip_map_self st.records
    (fun r => if r.event_id ∈ ids then { r with retry_count := r.retry_count + 1 } else r) p hp
  by_cases h : p.1.event_id ∈ ids
  · simp only [h, if_pos] at h2 ⊢
    rw [h2]
    simp
  · simp only [h, if_neg, not_false_iff] at h2 ⊢
    rw [h2]
    simp [h]

/-- Claim C10 witness: the frame condition at a concrete store with one
listed pending record, one listed synced record and one unlisted record. -/
theorem c10_witness :
    ((⟨[⟨1, ⟨1, "p1"⟩, 0, none, 3⟩, ⟨2, ⟨2, "p2"⟩, 1, some 9, 0⟩,
        ⟨3, ⟨3, "p3"⟩, 2, none, 0⟩]⟩ : EventStorage).increment_retry
      [1, 2]).records.length =
      (⟨[⟨1, ⟨1, "p1"⟩, 0, none, 3⟩, ⟨2, ⟨2, "p2"⟩, 1, some 9, 0⟩,
        ⟨3, ⟨3, "p3"⟩, 2, none, 0⟩]⟩ : EventStorage).records.length ∧
    (∀ p ∈ (⟨[⟨1, ⟨1, "p1"⟩, 0, none, 3⟩, ⟨2, ⟨2, "p2"⟩, 1, some 9, 0⟩,
        ⟨3, ⟨3, "p3"⟩, 2, none, 0⟩]⟩ : EventStorage).records.zip
        ((⟨[⟨1, ⟨1, "p1"⟩, 0, none, 3⟩, ⟨2, ⟨2, "p2"⟩, 1, some 9, 0⟩,
          ⟨3, ⟨3, "p3"⟩, 2, none, 0⟩]⟩ : EventStorage).increment_retry [1, 2]).records,
      p.2.event_id = p.1.event_id ∧ p.2.event = p.1.event ∧
      p.2.created_at = p.1.created_at ∧ p.2.synced_at = p.1.synced_at ∧
      p.2.retry_count =
        (if p.1.event_id ∈ [1, 2] then p.1.retry_count + 1 else p.1.retry_count)) :=
  c10_increment_retry_frame
    ⟨[⟨1, ⟨1, "p1"⟩, 0, none, 3⟩, ⟨2, ⟨2, "p2"⟩, 1, some 9, 0⟩,
      ⟨3, ⟨3, "p3"⟩, 2, none, 0⟩]⟩ [1, 2] (by decide)

/-! ## Claim C6 -/

theorem processEvents_counts (events : List IncomingEvent) :
    ∀ (db : List Nat) (acc : Nat) (errs : List EventError),
    (processEvents db events acc errs).1 +
      (processEvents db events acc errs).2.1.length =
      acc + errs.length + events.length := by
  induction events with
  | nil =>
    intro db acc errs
    simp [processEvents]
  | cons e rest ih =>
    intro db acc errs
    cases hpe : process_event db e with
    | ok db2 =>
      simp only [processEvents, hpe]
      rw [ih]
      simp only [List.length_cons]
      omega
    | error pr =>
      obtain ⟨code, msg⟩ := pr
      simp only [processEvents, hpe]
      rw [ih]
      simp only [List.length_append, List.length_cons, List.length_nil]
      omega

/-- Claim C6: for a batch passing batch-level validation (nonempty, at most
1000 events, matching or absent X-Batch-Size header, no DNT), every event
is processed — one rejection never stops the loop — and accepted plus
rejected counts equal the batch size; all accepted gives 200, a mix gives
207 carrying the per-event error list, none accepted gives 400 carrying the
full error list. -/
theorem c6_ingest_aggregate (db : List Nat) (events : List IncomingEvent)
    (hdr : Option Nat) (hne : events ≠ []) (hsize : events.length ≤ 1000)
    (hhdr : ∀ k, hdr = some k → k = events.length) :
    (processEvents db events 0 []).1 +
      (processEvents db events 0 []).2.1.length = events.length ∧
    ((processEvents db events 0 []).2.1 = [] →
      ingest db events hdr false =
        (.response 200 (processEvents db events 0 []).1 0 [],
          (processEvents db events 0 []).2.2) ∧
      (processEvents db events 0 []).1 = events.length) ∧
    ((processEvents db events 0 []).2.1 ≠ [] →
      0 < (processEvents db events 0 []).1 →
      ingest db events hdr false =
        (.response 207 (processEvents db events 0 []).1
          (processEvents db events 0 []).2.1.length
          (processEvents db events 0 []).2.1,
          (processEvents db events 0 []).2.2)) ∧
    ((processEvents db events 0 []).1 = 0 →
      ingest db events hdr false =
        (.response 400 0 (processEvents db events 0 []).2.1.length
          (processEvents db events 0 []).2.1,
          (processEvents db events 0 []).2.2)) := by
  have hcount := processEvents_counts events db 0 []
  have hempty : events.isEmpty = false := by
    simp [List.isEmpty_iff, hne]
  have hsz : ¬ (1000 < events.length) := by omega
  have hh : hdrMismatch hdr events.length = false := by
    cases hdr with
    | none => rfl
    | some k => simp [hdrMismatch, hhdr k rfl]
  have hingest : ingest db events hdr false =
      (match processEvents db events 0 [] with
      | (accepted, errors, db2) =>
        if errors.isEmpty then (.response 200 accepted errors.length [], db2)
        else if 0 < accepted then (.response 207 accepted errors.length errors, db2)
        else (.response 400 accepted errors.length errors, db2)) := by
    unfold ingest
    rw [hempty, hh]
    simp only [Bool.false_eq_true, if_false, if_neg hsz]
  rcases hproc : processEvents db events 0 [] with ⟨accepted, errors, db2⟩
  rw [hproc] at hcount hingest
  dsimp only at hcount hingest ⊢
  simp only [List.length_nil, Nat.zero_add] at hcount
  refine ⟨by omega, ?_, ?_, ?_⟩
  · intro herr
    subst herr
    rw [hingest]
    simp only [List.isEmpty_nil, if_true, List.length_nil]
    exact ⟨by trivial, by simpa using hcount⟩
  · intro herr hacc
    rw [hingest]
    have h1 : errors.isEmpty = false := by
      simp [List.isEmpty_iff, herr]
    simp only [h1, Bool.false_eq_true, if_false, if_pos hacc]
  · intro hacc
    subst hacc
    rw [hingest]
    have herr : errors ≠ [] := by
      intro hc
      rw [hc] at hcount
      simp at hcount
      exact hne (List.eq_nil_of_length_eq_zero hcount.symm)
    have h1 : errors.isEmpty = false := by
      simp [List.isEmpty_iff, herr]
    rw [h1]
    simp

/-- Claim C6 witness: a concrete three-event batch — a valid event, one
with an unsupported schema version, and a second valid event that is
processed despite the earlier rejection — yields 207 with accepted 2,
rejected 1. -/
theorem c6_witness :
    (processEvents [] [⟨"1.0.0", 1, ⟨"svc", "1.0.0", "rust", none⟩, "client_a", "x"⟩,
        ⟨"2.0.0", 2, ⟨"svc", "1.0.0", "rust", none⟩, "client_a", "x"⟩,
        ⟨"1.0.0", 3, ⟨"svc", "1.0.0", "rust", none⟩, "client_a", "x"⟩] 0 []).1 +
      (processEvents [] [⟨"1.0.0", 1, ⟨"svc", "1.0.0", "rust", none⟩, "client_a", "x"⟩,
        ⟨"2.0.0", 2, ⟨"svc", "1.0.0", "rust", none⟩, "client_a", "x"⟩,
        ⟨"1.0.0", 3, ⟨"svc", "1.0.0", "rust", none⟩, "client_a", "x"⟩] 0 []).2.1.length = 3 ∧
    ingest [] [⟨"1.0.0", 1, ⟨"svc", "1.0.0", "rust", none⟩, "client_a", "x"⟩,
        ⟨"2.0.0", 2, ⟨"svc", "1.0.0", "rust", none⟩, "client_a", "x"⟩,
        ⟨"1.0.0", 3, ⟨"svc", "1.0.0", "rust", none⟩, "client_a", "x"⟩] (some 3) false =
      (.response 207
        (processEvents [] [⟨"1.0.0", 1, ⟨"svc", "1.0.0", "rust", none⟩, "client_a", "x"⟩,
          ⟨"2.0.0", 2, ⟨"svc", "1.0.0", "rust", none⟩, "client_a", "x"⟩,
          ⟨"1.0.0", 3, ⟨"svc", "1.0.0", "rust", none⟩, "client_a", "x"⟩] 0 []).1
        (processEvents [] [⟨"1.0.0", 1, ⟨"svc", "1.0.0", "rust", none⟩, "client_a", "x"⟩,
          ⟨"2.0.0", 2, ⟨"svc", "1.0.0", "rust", none⟩, "client_a", "x"⟩,
          ⟨"1.0.0", 3, ⟨"svc", "1.0.0", "rust", none⟩, "client_a", "x"⟩] 0 []).2.1.length
        (processEvents [] [⟨"1.0.0", 1, ⟨"svc", "1.0.0", "rust", none⟩, "client_a", "x"⟩,
          ⟨"2.0.0", 2, ⟨"svc", "1.0.0", "rust", none⟩, "client_a", "x"⟩,
          ⟨"1.0.0", 3, ⟨"svc", "1.0.0", "rust", none⟩, "client_a", "x"⟩] 0 []).2.1,
        (processEvents [] [⟨"1.0.0", 1, ⟨"svc", "1.0.0", "rust", none⟩, "client_a", "x"⟩,
          ⟨"2.0.0", 2, ⟨"svc", "1.0.0", "rust", none⟩, "client_a", "x"⟩,
          ⟨"1.0.0", 3, ⟨"svc", "1.0.0", "rust", none⟩, "client_a", "x"⟩] 0 []).2.2) :=
  ⟨(c6_ingest_aggregate [] _ (some 3) (by decide) (by decide)
      (fun k hk => by cases hk; rfl)).1,
   (c6_ingest_aggregate [] _ (some 3) (by decide) (by decide)
      (fun k hk => by cases hk; rfl)).2.2.1 (by decide) (by decide)⟩

/-! ## Claim C7 -/

/-- Claim C7: a 429 response maps to `RateLimitExceeded` with `retry_after`
taken from the response body (60 when absent) and is retryable; each of
400, 401, 403, 409, 413, 422 maps to a non-retryable `ServerError`; every
5xx maps to a retryable `ServerError`; any other unexpected status maps to
a non-retryable generic `Other` error. -/
theorem c7_try_sync_classification (resp : HttpResponse) :
    (resp.status = 429 →
      try_sync_classify resp =
        .error (.rateLimitExceeded (resp.errorBody.retry_after.getD 60)) ∧
      (TelemetryError.rateLimitExceeded
        (resp.errorBody.retry_after.getD 60)).is_retryable = true ∧
      (resp.errorBody.retry_after = none → resp.errorBody.retry_after.getD 60 = 60)) ∧
    (resp.status = 400 ∨ resp.status = 401 ∨ resp.status = 403 ∨
        resp.status = 409 ∨ resp.status = 413 ∨ resp.status = 422 →
      try_sync_classify resp =
        .error (.serverError resp.status
          (resp.errorBody.error.code ++ ": " ++ resp.errorBody.error.message)) ∧
      (TelemetryError.serverError resp.status
        (resp.errorBody.error.code ++ ": " ++ resp.errorBody.error.message)).is_retryable =
        false) ∧
    (500 ≤ resp.status → resp.status ≤ 599 →
      try_sync_classify resp = .error (.serverError resp.status resp.text) ∧
      (TelemetryError.serverError resp.status resp.text).is_retryable = true) ∧
    (resp.status ≠ 200 → resp.status ≠ 207 → resp.status ≠ 429 →
      ¬ (resp.status = 400 ∨ resp.status = 401 ∨ resp.status = 403 ∨
        resp.status = 409 ∨ resp.status = 413 ∨ resp.status = 422) →
      ¬ (500 ≤ resp.status ∧ resp.status ≤ 599) →
      try_sync_classify resp =
        .error (.other
          ("Unexpected status code " ++ toString resp.status ++ ": " ++ resp.text)) ∧
      (TelemetryError.other
        ("Unexpected status code " ++ toString resp.status ++ ": " ++
          resp.text)).is_retryable = false) := by
  refine ⟨?_, ?_, ?_, ?_⟩
  · intro h
    refine ⟨?_, rfl, fun hn => by simp [hn]⟩
    unfold try_sync_classify
    rw [if_neg (by omega), if_neg (by omega), if_pos h]
  · intro h
    constructor
    · unfold try_sync_classify
      rw [if_neg (by omega), if_neg (by omega), if_neg (by omega), if_pos h]
    · simp only [TelemetryError.is_retryable]
      rcases h with h | h | h | h | h | h <;> simp [h]
  · intro h5 h6
    constructor
    · unfold try_sync_classify
      rw [if_neg (by omega), if_neg (by omega), if_neg (by omega),
        if_neg (by omega), if_pos ⟨h5, h6⟩]
    · simp only [TelemetryError.is_retryable]
      exact decide_eq_true h5
  · intro h1 h2 h3 h4 h5
    constructor
    · unfold try_sync_classify
      rw [if_neg h1, if_neg h2, if_neg h3, if_neg h4, if_neg h5]
    · rfl

/-- Claim C7 witness: the classification applied at concrete responses with
statuses 429 (body without retry_after, so the 60-second default), 401, 503
and 301. -/
theorem c7_witness :
    try_sync_classify ⟨429, .success 0 0 "", ⟨⟨"rate_limit_exceeded", "slow"⟩, none⟩, ""⟩ =
      .error (.rateLimitExceeded 60) ∧
    try_sync_classify ⟨401, .success 0 0 "", ⟨⟨"unauthorized", "bad token"⟩, none⟩, ""⟩ =
      .error (.serverError 401 ("unauthorized" ++ ": " ++ "bad token")) ∧
    (TelemetryError.serverError 401 ("unauthorized" ++ ": " ++ "bad token")).is_retryable =
      false ∧
    try_sync_classify ⟨503, .success 0 0 "", ⟨⟨"", ""⟩, none⟩, "oops"⟩ =
      .error (.serverError 503 "oops") ∧
    (TelemetryError.serverError 503 "oops").is_retryable = true ∧
    try_sync_classify ⟨301, .success 0 0 "", ⟨⟨"", ""⟩, none⟩, "moved"⟩ =
      .error (.other ("Unexpected status code " ++ toString (301 : Nat) ++ ": " ++ "moved")) :=
  ⟨((c7_try_sync_classification
      ⟨429, .success 0 0 "", ⟨⟨"rate_limit_exceeded", "slow"⟩, none⟩, ""⟩).1 rfl).1,
   ((c7_try_sync_classification
      ⟨401, .success 0 0 "", ⟨⟨"unauthorized", "bad token"⟩, none⟩, ""⟩).2.1
      (Or.inr (Or.inl rfl))).1,
   ((c7_try_sync_classification
      ⟨401, .success 0 0 "", ⟨⟨"unauthorized", "bad token"⟩, none⟩, ""⟩).2.1
      (Or.inr (Or.inl rfl))).2,
   ((c7_try_sync_classification
      ⟨503, .success 0 0 "", ⟨⟨"", ""⟩, none⟩, "oops"⟩).2.2.1 (by decide) (by decide)).1,
   ((c7_try_sync_classification
      ⟨503, .success 0 0 "", ⟨⟨"", ""⟩, none⟩, "oops"⟩).2.2.1 (by decide) (by decide)).2,
   ((c7_try_sync_classification
      ⟨301, .success 0 0 "", ⟨⟨"", ""⟩, none⟩, "moved"⟩).2.2.2 (by decide) (by decide)
      (by decide) (by decide) (by decide)).1⟩

/-! ## Claim C9 -/

theorem currentCount_cons_self (key : String) (cv e now : Nat)
    (rest : List (String × Nat × Nat)) :
    CounterStore.currentCount ⟨(key, cv, e) :: rest⟩ now key =
      if now < e then cv else 0 := by
  unfold CounterStore.currentCount lookupCounter
  rw [if_pos rfl]

theorem isAllowed_expectedOutcome (limit w k t : Nat) :
    isAllowed (expectedOutcome limit w k t) = !(decide (limit < k)) := by
  by_cases h : limit < k <;> simp [expectedOutcome, isAllowed, h]

/-- One `rate_limit` call for a non-Enterprise tier, when the live counter
for the window key reads `c`. -/
theorem rate_limit_eq (cfg : RateLimitConfig) (tier : TokenTier) (token_id : String)
    (limit w t : Nat) (store : CounterStore) (c : Nat)
    (hl : tierLimit cfg tier = some limit) (hw : t / 60 = w)
    (hc : store.currentCount t (rlKey token_id w) = c) :
    rate_limit cfg tier token_id t store =
      (expectedOutcome limit w (c + 1) t,
        ⟨(rlKey token_id w, c + 1, t + 60) ::
          store.entries.filter (fun e => e.1 != rlKey token_id w)⟩) := by
  simp only [rlKey] at hc
  unfold rate_limit CounterStore.incr_with_expiry
  rw [hl]
  dsimp only
  rw [hw, hc]
  by_cases hcase : limit < c + 1
  · simp only [rlKey, expectedOutcome, if_pos hcase]
  · simp only [rlKey, expectedOutcome, if_neg hcase]

/-- Folding a whole request sequence inside one minute window: outcomes are
read off the running counter, and the counter ends at the request count. -/
theorem runRequests_window (cfg : RateLimitConfig) (tier : TokenTier)
    (token_id : String) (limit w : Nat) (hl : tierLimit cfg tier = some limit) :
    ∀ (ts : List Nat) (store : CounterStore) (c : Nat),
      (∀ t ∈ ts, t / 60 = w) →
      (∀ t : Nat, t / 60 = w → store.currentCount t (rlKey token_id w) = c) →
      (runRequests cfg tier token_id ts store).1 = expectedOutcomes limit w c ts ∧
      (∀ t : Nat, t / 60 = w →
        (runRequests cfg tier token_id ts store).2.currentCount t (rlKey token_id w) =
          c + ts.length) := by
  intro ts
  induction ts with
  | nil =>
    intro store c _ hinv
    refine ⟨rfl, ?_⟩
    intro t ht
    simpa using hinv t ht
  | cons t ts ih =>
    intro store c hwin hinv
    have hw : t / 60 = w := hwin t (List.mem_cons_self _ _)
    have hstep := rate_limit_eq cfg tier token_id limit w t store c hl hw (hinv t hw)
    have hwmem : 60 * w ≤ t := by omega
    have hinv2 : ∀ t2 : Nat, t2 / 60 = w →
        CounterStore.currentCount
          ⟨(rlKey token_id w, c + 1, t + 60) ::
            store.entries.filter (fun e => e.1 != rlKey token_id w)⟩
          t2 (rlKey token_id w) = c + 1 := by
      intro t2 h2
      rw [currentCount_cons_self]
      rw [if_pos (by omega)]
    obtain ⟨ho, hs⟩ := ih _ (c + 1)
      (fun x hx => hwin x (List.mem_cons_of_mem _ hx)) hinv2
    constructor
    · show ((rate_limit cfg tier token_id t store).1 ::
        (runRequests cfg tier token_id ts (rate_limit cfg tier token_id t store).2).1,
        (runRequests cfg tier token_id ts (rate_limit cfg tier token_id t store).2).2).1 =
        expectedOutcomes limit w c (t :: ts)
      rw [hstep]
      dsimp only
      rw [ho]
      rfl
    · intro t2 h2
      show ((rate_limit cfg tier token_id t store).1 ::
        (runRequests cfg tier token_id ts (rate_limit cfg tier token_id t store).2).1,
        (runRequests cfg tier token_id ts (rate_limit cfg tier token_id t store).2).2).2.currentCount
          t2 (rlKey token_id w) = c + (t :: ts).length
      rw [hstep]
      dsimp only
      rw [hs t2 h2]
      simp only [List.length_cons]
      omega

theorem expectedOutcomes_countP (limit w : Nat) :
    ∀ (ts : List Nat) (c : Nat), c ≤ limit → ts.length = limit - c + 1 →
      (expectedOutcomes limit w c ts).countP isAllowed = limit - c := by
  intro ts
  induction ts with
  | nil =>
    intro c _ hlen
    simp at hlen
  | cons t ts ih =>
    intro c hc hlen
    rw [expectedOutcomes, List.countP_cons, isAllowed_expectedOutcome]
    by_cases hcl : c < limit
    · have h1 : ¬ (limit < c + 1) := by omega
      have hc2 : c + 1 ≤ limit := by omega
      have hlen2 : ts.length = limit - (c + 1) + 1 := by
        simp only [List.length_cons] at hlen
        omega
      rw [ih (c + 1) hc2 hlen2]
      simp [h1]
      omega
    · have hceq : c = limit := by omega
      subst hceq
      have hts : ts = [] := by
        simp only [List.length_cons, Nat.sub_self] at hlen
        exact List.eq_nil_of_length_eq_zero (by omega)
      subst hts
      simp [expectedOutcomes]

theorem expectedOutcomes_getElem (limit w : Nat) :
    ∀ (ts : List Nat) (c i : Nat),
      (expectedOutcomes limit w c ts)[i]? =
        (ts[i]?).map (fun t => expectedOutcome limit w (c + i + 1) t) := by
  intro ts
  induction ts with
  | nil =>
    intro c i
    simp [expectedOutcomes]
  | cons t ts ih =>
    intro c i
    cases i with
    | zero => simp [expectedOutcomes]
    | succ j =>
      rw [expectedOutcomes]
      rw [List.getElem?_cons_succ, List.getElem?_cons_succ, ih (c + 1) j]
      have harith : c + 1 + j + 1 = c + (j + 1) + 1 := by omega
      rw [harith]

/-- Claim C9: for a non-Enterprise token whose tier ceiling is `limit`,
within one fresh Unix-minute window the first `limit` requests pass — so
exactly `limit` of the `limit + 1` requests are allowed — and the
`(limit+1)`-th is answered 429 carrying `Retry-After` equal to the seconds
remaining to the next minute boundary (between 1 and 60) together with the
`X-RateLimit-*` headers; Enterprise-tier tokens are never rate limited and
never touch the counter store. -/
theorem c9_rate_limiter (cfg : RateLimitConfig) (tier : TokenTier)
    (token_id : String) (limit w : Nat) (ts : List Nat) (store : CounterStore)
    (hl : tierLimit cfg tier = some limit)
    (hwin : ∀ t ∈ ts, t / 60 = w)
    (hfresh : ∀ t : Nat, t / 60 = w → store.currentCount t (rlKey token_id w) = 0)
    (hlen : ts.length = limit + 1) :
    ((runRequests cfg tier token_id ts store).1.countP isAllowed = limit) ∧
    (∀ tlast, ts[limit]? = some tlast →
      (runRequests cfg tier token_id ts store).1[limit]? =
        some (.limited ((w + 1) * 60 - tlast)
          [("X-RateLimit-Limit", toString limit),
           ("X-RateLimit-Remaining", "0"),
           ("X-RateLimit-Reset", toString ((w + 1) * 60)),
           ("Retry-After", toString ((w + 1) * 60 - tlast))]) ∧
      1 ≤ (w + 1) * 60 - tlast ∧ (w + 1) * 60 - tlast ≤ 60) ∧
    (∀ (now : Nat) (store2 : CounterStore),
      rate_limit cfg .enterprise token_id now store2 = (.allowed [], store2)) := by
  obtain ⟨ho, -⟩ := runRequests_window cfg tier token_id limit w hl ts store 0 hwin hfresh
  refine ⟨?_, ?_, ?_⟩
  · have h2 := expectedOutcomes_countP limit w ts 0 (by omega) (by omega)
    rw [ho, h2]
    omega
  · intro tlast hts
    have hwlast : tlast / 60 = w := hwin tlast (List.getElem?_mem hts)
    refine ⟨?_, by omega, by omega⟩
    rw [ho, expectedOutcomes_getElem, hts]
    dsimp only [Option.map]
    have hlt : limit < 0 + limit + 1 := by omega
    simp only [expectedOutcome, if_pos hlt]
  · intro now store2
    rfl

/-- Claim C9 witness: free tier with ceiling 2, three requests in minute
window 2 of a fresh store — two allowed, the third limited with
`Retry-After` 1 second before the boundary. -/
theorem c9_witness :
    ((runRequests ⟨2, 100, 1000⟩ .free "tok" [120, 130, 179] ⟨[]⟩).1.countP isAllowed = 2) ∧
    (∀ tlast, [120, 130, 179][2]? = some tlast →
      (runRequests ⟨2, 100, 1000⟩ .free "tok" [120, 130, 179] ⟨[]⟩).1[2]? =
        some (.limited ((2 + 1) * 60 - tlast)
          [("X-RateLimit-Limit", toString 2),
           ("X-RateLimit-Remaining", "0"),
           ("X-RateLimit-Reset", toString ((2 + 1) * 60)),
           ("Retry-After", toString ((2 + 1) * 60 - tlast))]) ∧
      1 ≤ (2 + 1) * 60 - tlast ∧ (2 + 1) * 60 - tlast ≤ 60) ∧
    (∀ (now : Nat) (store2 : CounterStore),
      rate_limit ⟨2, 100, 1000⟩ .enterprise "tok" now store2 = (.allowed [], store2)) :=
  c9_rate_limiter ⟨2, 100, 1000⟩ .free "tok" 2 2 [120, 130, 179] ⟨[]⟩
    rfl (by decide) (fun t _ => rfl) rfl

end TelemetryKit
